import Mathlib

/-!
Verification of the ar-backend maintenance-management API domain model.

The definitions below are a shallow embedding of the TypeScript source:
  * the inventory consumption ledger
    (`src/routes/workOrderParts.routes.ts` POST/PUT/DELETE handlers),
  * the maintenance recurrence engine
    (`src/routes/maintenanceSchedule.routes.ts` complete/update handlers),
  * the role-authorization middleware (`src/middleware/roleAuth.ts`),
  * the soft-delete ("paranoid") persistence semantics configured by the
    Sequelize models (`paranoid: true` in `src/models/*.ts`).

Persisted rows are modelled as association lists keyed by integer primary
key; dates are modelled as integer day numbers (the source computes
`next_due` by calendar-day addition via `setDate(getDate() + frequency_days)`,
which on day numbers is integer addition); machine-integer quantities are
modelled as `Int` (the JSON numbers of interest in the claims are integers).
-/

namespace ArBackend

/-- Lookup in an association list keyed by `Nat` primary key (first match). -/
def lookupA {α : Type} : List (Nat × α) → Nat → Option α
  | [], _ => none
  | (k, v) :: rest, i => if k = i then some v else lookupA rest i

/-- Overwrite the value stored at key `i` (models a row `update`). -/
def setA {α : Type} : List (Nat × α) → Nat → α → List (Nat × α)
  | [], _, _ => []
  | (k, u) :: rest, i, v =>
      if k = i then (i, v) :: setA rest i v else (k, u) :: setA rest i v

/-- An inventory row: `quantity` column plus its soft-deletion mark
(`Inventory.init` in `src/models/Inventory.ts`, `paranoid: true`). -/
structure InventoryItem where
  quantity : Int
  deleted : Bool
  deriving Repr, DecidableEq

/-- A work-order part row: `work_order_id`, `inventory_id`, `quantity_used`
columns plus the soft-deletion mark (`src/models/WorkOrderPart.ts`). -/
structure WorkOrderPartRec where
  work_order_id : Nat
  inventory_id : Nat
  quantity_used : Int
  deleted : Bool
  deriving Repr, DecidableEq

/-- The slice of the data store touched by the work-order-part routes:
live work-order ids, inventory rows and part rows. -/
structure LedgerState where
  workOrders : List Nat
  inventories : List (Nat × InventoryItem)
  parts : List (Nat × WorkOrderPartRec)
  deriving Repr, DecidableEq

/-- Outcome of one request: the HTTP status sent and the store afterwards. -/
structure LedgerResult where
  status : Nat
  state : LedgerState
  deriving Repr, DecidableEq

/-- `Inventory.findByPk` under `paranoid: true`: a soft-deleted row is
invisible. -/
def findInventory (s : LedgerState) (i : Nat) : Option InventoryItem :=
  match lookupA s.inventories i with
  | some it => if it.deleted then none else some it
  | none => none

/-- `WorkOrderPart.findByPk` under `paranoid: true`. -/
def findPart (s : LedgerState) (i : Nat) : Option WorkOrderPartRec :=
  match lookupA s.parts i with
  | some p => if p.deleted then none else some p
  | none => none

/-- `POST /work-orders/:workOrderId/parts`
(`src/routes/workOrderParts.routes.ts`): 404 if the work order or the
inventory item is missing, 400 if `inventoryItem.quantity < quantity_used`,
otherwise create the part row (`pid` is the fresh autoincrement key) and
update the inventory row to `quantity - quantity_used`, answering 201. -/
def createWorkOrderPart (s : LedgerState) (pid workOrderId inventory_id : Nat)
    (quantity_used : Int) : LedgerResult :=
  if s.workOrders.contains workOrderId = false then ⟨404, s⟩
  else
    match findInventory s inventory_id with
    | none => ⟨404, s⟩
    | some item =>
      if item.quantity < quantity_used then ⟨400, s⟩
      else
        let s1 := { s with
          parts := (pid, ⟨workOrderId, inventory_id, quantity_used, false⟩) :: s.parts }
        let s2 := { s1 with
          inventories := setA s1.inventories inventory_id
            ⟨item.quantity - quantity_used, item.deleted⟩ }
        ⟨201, s2⟩

/-- `PUT /work-order-parts/:id`: 404 if the part or its inventory item is
missing, 400 if the positive delta exceeds stock, otherwise apply
`quantity -= delta` to the inventory row and persist the new
`quantity_used`, answering 200. -/
def updateWorkOrderPart (s : LedgerState) (pid : Nat) (quantity_used : Int) :
    LedgerResult :=
  match findPart s pid with
  | none => ⟨404, s⟩
  | some part =>
    match findInventory s part.inventory_id with
    | none => ⟨404, s⟩
    | some item =>
      let quantityDifference := quantity_used - part.quantity_used
      if 0 < quantityDifference ∧ item.quantity < quantityDifference then ⟨400, s⟩
      else
        let s1 := { s with
          inventories := setA s.inventories part.inventory_id
            ⟨item.quantity - quantityDifference, item.deleted⟩ }
        let s2 := { s1 with
          parts := setA s1.parts pid { part with quantity_used := quantity_used } }
        ⟨200, s2⟩

/-- `DELETE /work-order-parts/:id`: 404 if the part or its inventory item is
missing, otherwise restore `quantity += quantity_used` and destroy the part
row (a soft delete, the model being paranoid), answering 204. -/
def deleteWorkOrderPart (s : LedgerState) (pid : Nat) : LedgerResult :=
  match findPart s pid with
  | none => ⟨404, s⟩
  | some part =>
    match findInventory s part.inventory_id with
    | none => ⟨404, s⟩
    | some item =>
      let s1 := { s with
        inventories := setA s.inventories part.inventory_id
          ⟨item.quantity + part.quantity_used, item.deleted⟩ }
      let s2 := { s1 with
        parts := setA s1.parts pid { part with deleted := true } }
      ⟨204, s2⟩

/-- One ledger operation, as issued through the three mutating routes. -/
inductive LedgerOp where
  | createOp (pid workOrderId inventory_id : Nat) (quantity_used : Int)
  | updateOp (pid : Nat) (quantity_used : Int)
  | deleteOp (pid : Nat)
  deriving Repr, DecidableEq

/-- Execute one operation, keeping the resulting store (the HTTP status is
dropped; a rejected request leaves the store untouched). -/
def applyOp (s : LedgerState) : LedgerOp → LedgerState
  | .createOp pid workOrderId inventory_id q =>
      (createWorkOrderPart s pid workOrderId inventory_id q).state
  | .updateOp pid q => (updateWorkOrderPart s pid q).state
  | .deleteOp pid => (deleteWorkOrderPart s pid).state

/-- The data-model constraint `quantity_used > 0` on the quantity carried by
an operation (`WorkOrderPart.init` validation `min 0.0001`). -/
def opQuantityPos : LedgerOp → Bool
  | .createOp _ _ _ q => decide (0 < q)
  | .updateOp _ q => decide (0 < q)
  | .deleteOp _ => true

/-- Store well-formedness: every inventory quantity is non-negative and every
part's `quantity_used` is positive. -/
def wfState (s : LedgerState) : Bool :=
  s.inventories.all (fun p => decide (0 ≤ p.2.quantity)) &&
    s.parts.all (fun p => decide (0 < p.2.quantity_used))

/-! ### Association-list lemmas -/

theorem lookupA_mem {α : Type} {l : List (Nat × α)} {i : Nat} {v : α}
    (h : lookupA l i = some v) : (i, v) ∈ l := by
  induction l with
  | nil => simp [lookupA] at h
  | cons hd tl ih =>
    simp only [lookupA] at h
    split at h
    · rename_i hk
      cases h
      subst hk
      exact List.mem_cons_self _ _
    · exact List.mem_cons_of_mem _ (ih h)

theorem lookupA_setA_self {α : Type} {l : List (Nat × α)} {i : Nat} {w : α}
    (v : α) (h : lookupA l i = some w) : lookupA (setA l i v) i = some v := by
  induction l with
  | nil => simp [lookupA] at h
  | cons hd tl ih =>
    obtain ⟨k, u⟩ := hd
    simp only [lookupA] at h
    by_cases hk : k = i
    · simp [setA, lookupA, hk]
    · rw [if_neg hk] at h
      simp only [setA, lookupA, if_neg hk]
      exact ih h

theorem mem_setA {α : Type} {l : List (Nat × α)} {i : Nat} {v : α} {x : Nat × α}
    (h : x ∈ setA l i v) : x = (i, v) ∨ x ∈ l := by
  induction l with
  | nil => simp [setA] at h
  | cons hd tl ih =>
    obtain ⟨k, u⟩ := hd
    simp only [setA] at h
    by_cases hk : k = i
    · rw [if_pos hk] at h
      rcases List.mem_cons.1 h with h1 | h2
      · exact Or.inl h1
      · rcases ih h2 with h3 | h4
        · exact Or.inl h3
        · exact Or.inr (List.mem_cons_of_mem _ h4)
    · rw [if_neg hk] at h
      rcases List.mem_cons.1 h with h1 | h2
      · exact Or.inr (h1 ▸ List.mem_cons_self _ _)
      · rcases ih h2 with h3 | h4
        · exact Or.inl h3
        · exact Or.inr (List.mem_cons_of_mem _ h4)

theorem findInventory_not_deleted {s : LedgerState} {i : Nat} {it : InventoryItem}
    (h : findInventory s i = some it) :
    lookupA s.inventories i = some it ∧ it.deleted = false := by
  unfold findInventory at h
  split at h
  · rename_i it' hl
    split at h
    · cases h
    · rename_i hd
      cases h
      exact ⟨hl, by simpa using hd⟩
  · cases h

theorem findPart_not_deleted {s : LedgerState} {i : Nat} {p : WorkOrderPartRec}
    (h : findPart s i = some p) :
    lookupA s.parts i = some p ∧ p.deleted = false := by
  unfold findPart at h
  split at h
  · rename_i p' hl
    split at h
    · cases h
    · rename_i hd
      cases h
      exact ⟨hl, by simpa using hd⟩
  · cases h

/-! ### Branch equations for the work-order-part handlers -/

theorem createWorkOrderPart_eq_noWorkOrder {s : LedgerState}
    {pid workOrderId inventory_id : Nat} {q : Int}
    (h : s.workOrders.contains workOrderId = false) :
    createWorkOrderPart s pid workOrderId inventory_id q = ⟨404, s⟩ := by
  unfold createWorkOrderPart
  rw [if_pos h]

theorem createWorkOrderPart_eq_noInventory {s : LedgerState}
    {pid workOrderId inventory_id : Nat} {q : Int}
    (_h1 : s.workOrders.contains workOrderId = true)
    (h2 : findInventory s inventory_id = none) :
    createWorkOrderPart s pid workOrderId inventory_id q = ⟨404, s⟩ := by
  unfold createWorkOrderPart
  split
  · rfl
  · split
    · rfl
    · rename_i item hsome
      rw [h2] at hsome
      cases hsome

theorem createWorkOrderPart_eq_insufficient {s : LedgerState}
    {pid workOrderId inventory_id : Nat} {q : Int} {item : InventoryItem}
    (h1 : s.workOrders.contains workOrderId = true)
    (h2 : findInventory s inventory_id = some item)
    (hlt : item.quantity < q) :
    createWorkOrderPart s pid workOrderId inventory_id q = ⟨400, s⟩ := by
  unfold createWorkOrderPart
  split
  · rename_i hc
    rw [h1] at hc
    cases hc
  · split
    · rename_i hnone
      rw [h2] at hnone
      cases hnone
    · rename_i item' hsome
      rw [h2] at hsome
      injection hsome with he
      subst he
      rw [if_pos hlt]

theorem createWorkOrderPart_eq_success {s : LedgerState}
    {pid workOrderId inventory_id : Nat} {q : Int} {item : InventoryItem}
    (h1 : s.workOrders.contains workOrderId = true)
    (h2 : findInventory s inventory_id = some item)
    (hnlt : ¬ item.quantity < q) :
    createWorkOrderPart s pid workOrderId inventory_id q =
      ⟨201, ⟨s.workOrders,
        setA s.inventories inventory_id ⟨item.quantity - q, item.deleted⟩,
        (pid, ⟨workOrderId, inventory_id, q, false⟩) :: s.parts⟩⟩ := by
  unfold createWorkOrderPart
  split
  · rename_i hc
    rw [h1] at hc
    cases hc
  · split
    · rename_i hnone
      rw [h2] at hnone
      cases hnone
    · rename_i item' hsome
      rw [h2] at hsome
      injection hsome with he
      subst he
      rw [if_neg hnlt]

/-! ### C2: WorkOrderPart creation -/

/-- C2: a WorkOrderPart creation answers 404 without mutation when the work
order or the inventory item is missing; answers 400 without mutation when
`inventory.quantity < quantity_used`; otherwise answers 201, persists the
part record, and leaves the inventory quantity at its previous value minus
`quantity_used`. -/
theorem createWorkOrderPart_spec (s : LedgerState) (pid workOrderId inventory_id : Nat)
    (quantity_used : Int) :
    (s.workOrders.contains workOrderId = false →
      createWorkOrderPart s pid workOrderId inventory_id quantity_used = ⟨404, s⟩) ∧
    (s.workOrders.contains workOrderId = true → findInventory s inventory_id = none →
      createWorkOrderPart s pid workOrderId inventory_id quantity_used = ⟨404, s⟩) ∧
    (∀ item : InventoryItem, s.workOrders.contains workOrderId = true →
      findInventory s inventory_id = some item →
      (item.quantity < quantity_used →
        createWorkOrderPart s pid workOrderId inventory_id quantity_used = ⟨400, s⟩) ∧
      (quantity_used ≤ item.quantity →
        (createWorkOrderPart s pid workOrderId inventory_id quantity_used).status = 201 ∧
        findInventory (createWorkOrderPart s pid workOrderId inventory_id quantity_used).state
          inventory_id = some ⟨item.quantity - quantity_used, false⟩ ∧
        findPart (createWorkOrderPart s pid workOrderId inventory_id quantity_used).state pid
          = some ⟨workOrderId, inventory_id, quantity_used, false⟩)) := by
  refine ⟨?_, ?_, ?_⟩
  · intro h
    exact createWorkOrderPart_eq_noWorkOrder h
  · intro h1 h2
    exact createWorkOrderPart_eq_noInventory h1 h2
  · intro item h1 h2
    obtain ⟨hl, hd⟩ := findInventory_not_deleted h2
    constructor
    · intro hlt
      exact createWorkOrderPart_eq_insufficient h1 h2 hlt
    · intro hle
      have hnlt : ¬ item.quantity < quantity_used := not_lt.mpr hle
      rw [createWorkOrderPart_eq_success h1 h2 hnlt]
      refine ⟨rfl, ?_, ?_⟩
      · show (match lookupA
            (setA s.inventories inventory_id ⟨item.quantity - quantity_used, item.deleted⟩)
            inventory_id with
          | some it => if it.deleted then none else some it
          | none => none) = some ⟨item.quantity - quantity_used, false⟩
        rw [lookupA_setA_self _ hl]
        simp [hd]
      · show (match lookupA
            ((pid, (⟨workOrderId, inventory_id, quantity_used, false⟩ : WorkOrderPartRec))
              :: s.parts) pid with
          | some p => if p.deleted then none else some p
          | none => none) = some ⟨workOrderId, inventory_id, quantity_used, false⟩
        simp [lookupA]

/-- Witness for C2: a concrete successful creation. -/
theorem createWorkOrderPart_spec_witness :
    (createWorkOrderPart ⟨[1], [(5, ⟨10, false⟩)], []⟩ 3 1 5 4).status = 201 ∧
    findInventory (createWorkOrderPart ⟨[1], [(5, ⟨10, false⟩)], []⟩ 3 1 5 4).state 5
      = some ⟨6, false⟩ ∧
    findPart (createWorkOrderPart ⟨[1], [(5, ⟨10, false⟩)], []⟩ 3 1 5 4).state 3
      = some ⟨1, 5, 4, false⟩ := by
  have h := createWorkOrderPart_spec ⟨[1], [(5, ⟨10, false⟩)], []⟩ 3 1 5 4
  exact (h.2.2 ⟨10, false⟩ (by decide) (by decide)).2 (by decide)

/-! ### Branch equations for update and delete -/

theorem updateWorkOrderPart_eq_noPart {s : LedgerState} {pid : Nat} {q : Int}
    (h : findPart s pid = none) :
    updateWorkOrderPart s pid q = ⟨404, s⟩ := by
  unfold updateWorkOrderPart
  split
  · rfl
  · rename_i part hsome
    rw [h] at hsome
    cases hsome

theorem updateWorkOrderPart_eq_noInventory {s : LedgerState} {pid : Nat} {q : Int}
    {part : WorkOrderPartRec}
    (hp : findPart s pid = some part)
    (hi : findInventory s part.inventory_id = none) :
    updateWorkOrderPart s pid q = ⟨404, s⟩ := by
  unfold updateWorkOrderPart
  split
  · rfl
  · rename_i part' hsome
    rw [hp] at hsome
    injection hsome with he
    subst he
    split
    · rfl
    · rename_i item hsi
      rw [hi] at hsi
      cases hsi

theorem updateWorkOrderPart_eq_insufficient {s : LedgerState} {pid : Nat} {q : Int}
    {part : WorkOrderPartRec} {item : InventoryItem}
    (hp : findPart s pid = some part)
    (hi : findInventory s part.inventory_id = some item)
    (hg : 0 < q - part.quantity_used ∧ item.quantity < q - part.quantity_used) :
    updateWorkOrderPart s pid q = ⟨400, s⟩ := by
  unfold updateWorkOrderPart
  split
  · rename_i hnone
    rw [hp] at hnone
    cases hnone
  · rename_i part' hsome
    rw [hp] at hsome
    injection hsome with he
    subst he
    split
    · rename_i hnone
      rw [hi] at hnone
      cases hnone
    · rename_i item' hsi
      rw [hi] at hsi
      injection hsi with he'
      subst he'
      rw [if_pos hg]

theorem updateWorkOrderPart_eq_success {s : LedgerState} {pid : Nat} {q : Int}
    {part : WorkOrderPartRec} {item : InventoryItem}
    (hp : findPart s pid = some part)
    (hi : findInventory s part.inventory_id = some item)
    (hg : ¬ (0 < q - part.quantity_used ∧ item.quantity < q - part.quantity_used)) :
    updateWorkOrderPart s pid q =
      ⟨200, ⟨s.workOrders,
        setA s.inventories part.inventory_id
          ⟨item.quantity - (q - part.quantity_used), item.deleted⟩,
        setA s.parts pid { part with quantity_used := q }⟩⟩ := by
  unfold updateWorkOrderPart
  split
  · rename_i hnone
    rw [hp] at hnone
    cases hnone
  · rename_i part' hsome
    rw [hp] at hsome
    injection hsome with he
    subst he
    split
    · rename_i hnone
      rw [hi] at hnone
      cases hnone
    · rename_i item' hsi
      rw [hi] at hsi
      injection hsi with he'
      subst he'
      rw [if_neg hg]

theorem deleteWorkOrderPart_eq_noPart {s : LedgerState} {pid : Nat}
    (h : findPart s pid = none) :
    deleteWorkOrderPart s pid = ⟨404, s⟩ := by
  unfold deleteWorkOrderPart
  split
  · rfl
  · rename_i part hsome
    rw [h] at hsome
    cases hsome

theorem deleteWorkOrderPart_eq_noInventory {s : LedgerState} {pid : Nat}
    {part : WorkOrderPartRec}
    (hp : findPart s pid = some part)
    (hi : findInventory s part.inventory_id = none) :
    deleteWorkOrderPart s pid = ⟨404, s⟩ := by
  unfold deleteWorkOrderPart
  split
  · rfl
  · rename_i part' hsome
    rw [hp] at hsome
    injection hsome with he
    subst he
    split
    · rfl
    · rename_i item hsi
      rw [hi] at hsi
      cases hsi

theorem deleteWorkOrderPart_eq_success {s : LedgerState} {pid : Nat}
    {part : WorkOrderPartRec} {item : InventoryItem}
    (hp : findPart s pid = some part)
    (hi : findInventory s part.inventory_id = some item) :
    deleteWorkOrderPart s pid =
      ⟨204, ⟨s.workOrders,
        setA s.inventories part.inventory_id
          ⟨item.quantity + part.quantity_used, item.deleted⟩,
        setA s.parts pid { part with deleted := true }⟩⟩ := by
  unfold deleteWorkOrderPart
  split
  · rename_i hnone
    rw [hp] at hnone
    cases hnone
  · rename_i part' hsome
    rw [hp] at hsome
    injection hsome with he
    subst he
    split
    · rename_i hnone
      rw [hi] at hnone
      cases hnone
    · rename_i item' hsi
      rw [hi] at hsi
      injection hsi with he'
      subst he'
      rfl

/-! ### C6: WorkOrderPart update -/

/-- C6: updating an existing part's `quantity_used` from `q0` to `q1` over an
existing inventory item answers 400 without mutation when the delta
`q1 - q0` is positive and exceeds stock; otherwise it answers 200, the
inventory quantity afterwards equals the quantity before minus the delta,
and the part's `quantity_used` is persisted as `q1`. -/
theorem updateWorkOrderPart_spec (s : LedgerState) (pid : Nat) (q1 : Int)
    (part : WorkOrderPartRec) (item : InventoryItem)
    (hp : findPart s pid = some part)
    (hi : findInventory s part.inventory_id = some item) :
    ((0 < q1 - part.quantity_used ∧ item.quantity < q1 - part.quantity_used) →
      updateWorkOrderPart s pid q1 = ⟨400, s⟩) ∧
    (¬ (0 < q1 - part.quantity_used ∧ item.quantity < q1 - part.quantity_used) →
      (updateWorkOrderPart s pid q1).status = 200 ∧
      findInventory (updateWorkOrderPart s pid q1).state part.inventory_id
        = some ⟨item.quantity - (q1 - part.quantity_used), false⟩ ∧
      findPart (updateWorkOrderPart s pid q1).state pid
        = some { part with quantity_used := q1 }) := by
  obtain ⟨hil, hid⟩ := findInventory_not_deleted hi
  obtain ⟨hpl, hpd⟩ := findPart_not_deleted hp
  constructor
  · intro hg
    exact updateWorkOrderPart_eq_insufficient hp hi hg
  · intro hg
    rw [updateWorkOrderPart_eq_success hp hi hg]
    refine ⟨rfl, ?_, ?_⟩
    · show (match lookupA
          (setA s.inventories part.inventory_id
            ⟨item.quantity - (q1 - part.quantity_used), item.deleted⟩)
          part.inventory_id with
        | some it => if it.deleted then none else some it
        | none => none) = some ⟨item.quantity - (q1 - part.quantity_used), false⟩
      rw [lookupA_setA_self _ hil]
      simp [hid]
    · show (match lookupA (setA s.parts pid { part with quantity_used := q1 }) pid with
        | some p => if p.deleted then none else some p
        | none => none) = some { part with quantity_used := q1 }
      rw [lookupA_setA_self _ hpl]
      simp [hpd]

/-- Witness for C6: a concrete in-stock update from `quantity_used = 4`
to `9` against an inventory quantity of 10. -/
theorem updateWorkOrderPart_spec_witness :
    (updateWorkOrderPart ⟨[1], [(5, ⟨10, false⟩)], [(3, ⟨1, 5, 4, false⟩)]⟩ 3 9).status = 200 ∧
    findInventory (updateWorkOrderPart ⟨[1], [(5, ⟨10, false⟩)], [(3, ⟨1, 5, 4, false⟩)]⟩ 3 9).state 5
      = some ⟨5, false⟩ ∧
    findPart (updateWorkOrderPart ⟨[1], [(5, ⟨10, false⟩)], [(3, ⟨1, 5, 4, false⟩)]⟩ 3 9).state 3
      = some ⟨1, 5, 9, false⟩ := by
  have h := updateWorkOrderPart_spec ⟨[1], [(5, ⟨10, false⟩)], [(3, ⟨1, 5, 4, false⟩)]⟩ 3 9
    ⟨1, 5, 4, false⟩ ⟨10, false⟩ (by decide) (by decide)
  exact h.2 (by decide)

/-! ### C7: WorkOrderPart deletion -/

/-- C7: a successful deletion of a work-order part answers 204, the
referenced inventory item's quantity afterwards equals its quantity before
plus the deleted part's `quantity_used`, and the part record is no longer
visible to reads. -/
theorem deleteWorkOrderPart_spec (s : LedgerState) (pid : Nat)
    (part : WorkOrderPartRec) (item : InventoryItem)
    (hp : findPart s pid = some part)
    (hi : findInventory s part.inventory_id = some item) :
    (deleteWorkOrderPart s pid).status = 204 ∧
    findInventory (deleteWorkOrderPart s pid).state part.inventory_id
      = some ⟨item.quantity + part.quantity_used, false⟩ ∧
    findPart (deleteWorkOrderPart s pid).state pid = none := by
  obtain ⟨hil, hid⟩ := findInventory_not_deleted hi
  obtain ⟨hpl, _⟩ := findPart_not_deleted hp
  rw [deleteWorkOrderPart_eq_success hp hi]
  refine ⟨rfl, ?_, ?_⟩
  · show (match lookupA
        (setA s.inventories part.inventory_id
          ⟨item.quantity + part.quantity_used, item.deleted⟩)
        part.inventory_id with
      | some it => if it.deleted then none else some it
      | none => none) = some ⟨item.quantity + part.quantity_used, false⟩
    rw [lookupA_setA_self _ hil]
    simp [hid]
  · show (match lookupA (setA s.parts pid { part with deleted := true }) pid with
      | some p => if p.deleted then none else some p
      | none => none) = none
    rw [lookupA_setA_self _ hpl]
    simp

/-- Witness for C7: deleting the part restores 10 + 4 = 14 units and the
part disappears from reads. -/
theorem deleteWorkOrderPart_spec_witness :
    (deleteWorkOrderPart ⟨[1], [(5, ⟨10, false⟩)], [(3, ⟨1, 5, 4, false⟩)]⟩ 3).status = 204 ∧
    findInventory (deleteWorkOrderPart ⟨[1], [(5, ⟨10, false⟩)], [(3, ⟨1, 5, 4, false⟩)]⟩ 3).state 5
      = some ⟨14, false⟩ ∧
    findPart (deleteWorkOrderPart ⟨[1], [(5, ⟨10, false⟩)], [(3, ⟨1, 5, 4, false⟩)]⟩ 3).state 3
      = none :=
  deleteWorkOrderPart_spec ⟨[1], [(5, ⟨10, false⟩)], [(3, ⟨1, 5, 4, false⟩)]⟩ 3
    ⟨1, 5, 4, false⟩ ⟨10, false⟩ (by decide) (by decide)

/-! ### C10: WorkOrderPart deletion with a missing inventory item -/

/-- C10: when the part exists but its referenced inventory item is invisible
(absent or soft-deleted), the delete answers 404 and nothing changes: the
part is not removed and no quantity is restored. -/
theorem deleteWorkOrderPart_noInventory_spec (s : LedgerState) (pid : Nat)
    (part : WorkOrderPartRec)
    (hp : findPart s pid = some part)
    (hi : findInventory s part.inventory_id = none) :
    (deleteWorkOrderPart s pid).status = 404 ∧
    (deleteWorkOrderPart s pid).state = s := by
  rw [deleteWorkOrderPart_eq_noInventory hp hi]
  exact ⟨rfl, rfl⟩

/-- Witness for C10: the part references a soft-deleted inventory row. -/
theorem deleteWorkOrderPart_noInventory_spec_witness :
    (deleteWorkOrderPart ⟨[1], [(9, ⟨2, true⟩)], [(3, ⟨1, 9, 4, false⟩)]⟩ 3).status = 404 ∧
    (deleteWorkOrderPart ⟨[1], [(9, ⟨2, true⟩)], [(3, ⟨1, 9, 4, false⟩)]⟩ 3).state
      = ⟨[1], [(9, ⟨2, true⟩)], [(3, ⟨1, 9, 4, false⟩)]⟩ :=
  deleteWorkOrderPart_noInventory_spec ⟨[1], [(9, ⟨2, true⟩)], [(3, ⟨1, 9, 4, false⟩)]⟩ 3
    ⟨1, 9, 4, false⟩ (by decide) (by decide)

/-! ### C1: the ledger never drives a quantity negative -/

theorem wfState_of {s : LedgerState}
    (h1 : ∀ p ∈ s.inventories, 0 ≤ p.2.quantity)
    (h2 : ∀ p ∈ s.parts, 0 < p.2.quantity_used) : wfState s = true := by
  unfold wfState
  rw [Bool.and_eq_true, List.all_eq_true, List.all_eq_true]
  constructor
  · intro p hp
    simpa using h1 p hp
  · intro p hp
    simpa using h2 p hp

theorem wfState_inventories {s : LedgerState} (hwf : wfState s = true) :
    ∀ p ∈ s.inventories, 0 ≤ p.2.quantity := by
  unfold wfState at hwf
  rw [Bool.and_eq_true, List.all_eq_true, List.all_eq_true] at hwf
  intro p hp
  simpa using hwf.1 p hp

theorem wfState_parts {s : LedgerState} (hwf : wfState s = true) :
    ∀ p ∈ s.parts, 0 < p.2.quantity_used := by
  unfold wfState at hwf
  rw [Bool.and_eq_true, List.all_eq_true, List.all_eq_true] at hwf
  intro p hp
  simpa using hwf.2 p hp

/-- One ledger operation with a positive quantity keeps every inventory
quantity non-negative and every part quantity positive. -/
theorem applyOp_preserves (s : LedgerState) (op : LedgerOp)
    (hwf : wfState s = true) (hop : opQuantityPos op = true) :
    wfState (applyOp s op) = true := by
  cases op with
  | createOp pid workOrderId inventory_id q =>
    simp only [opQuantityPos, decide_eq_true_eq] at hop
    simp only [applyOp]
    cases hwo : s.workOrders.contains workOrderId with
    | false => rw [createWorkOrderPart_eq_noWorkOrder hwo]; exact hwf
    | true =>
      cases hfi : findInventory s inventory_id with
      | none => rw [createWorkOrderPart_eq_noInventory hwo hfi]; exact hwf
      | some item =>
        by_cases hlt : item.quantity < q
        · rw [createWorkOrderPart_eq_insufficient hwo hfi hlt]; exact hwf
        · rw [createWorkOrderPart_eq_success hwo hfi hlt]
          apply wfState_of
          · intro p hp
            rcases mem_setA hp with he | hmem
            · rw [he]
              simp only
              omega
            · exact wfState_inventories hwf p hmem
          · intro p hp
            rcases List.mem_cons.1 hp with he | hmem
            · rw [he]
              exact hop
            · exact wfState_parts hwf p hmem
  | updateOp pid q =>
    simp only [opQuantityPos, decide_eq_true_eq] at hop
    simp only [applyOp]
    cases hfp : findPart s pid with
    | none => rw [updateWorkOrderPart_eq_noPart hfp]; exact hwf
    | some part =>
      cases hfi : findInventory s part.inventory_id with
      | none => rw [updateWorkOrderPart_eq_noInventory hfp hfi]; exact hwf
      | some item =>
        by_cases hg : 0 < q - part.quantity_used ∧ item.quantity < q - part.quantity_used
        · rw [updateWorkOrderPart_eq_insufficient hfp hfi hg]; exact hwf
        · rw [updateWorkOrderPart_eq_success hfp hfi hg]
          have hqty : 0 ≤ item.quantity :=
            wfState_inventories hwf _ (lookupA_mem (findInventory_not_deleted hfi).1)
          apply wfState_of
          · intro p hp
            rcases mem_setA hp with he | hmem
            · rw [he]
              simp only
              omega
            · exact wfState_inventories hwf p hmem
          · intro p hp
            rcases mem_setA hp with he | hmem
            · rw [he]
              exact hop
            · exact wfState_parts hwf p hmem
  | deleteOp pid =>
    simp only [applyOp]
    cases hfp : findPart s pid with
    | none => rw [deleteWorkOrderPart_eq_noPart hfp]; exact hwf
    | some part =>
      cases hfi : findInventory s part.inventory_id with
      | none => rw [deleteWorkOrderPart_eq_noInventory hfp hfi]; exact hwf
      | some item =>
        rw [deleteWorkOrderPart_eq_success hfp hfi]
        have hqty : 0 ≤ item.quantity :=
          wfState_inventories hwf _ (lookupA_mem (findInventory_not_deleted hfi).1)
        have hpq : 0 < part.quantity_used :=
          wfState_parts hwf _ (lookupA_mem (findPart_not_deleted hfp).1)
        apply wfState_of
        · intro p hp
          rcases mem_setA hp with he | hmem
          · rw [he]
            simp only
            omega
          · exact wfState_inventories hwf p hmem
        · intro p hp
          rcases mem_setA hp with he | hmem
          · rw [he]
            exact hpq
          · exact wfState_parts hwf p hmem

/-- C1: along any sequence of ledger operations (create, update, delete of
work-order parts) whose quantities satisfy `quantity_used > 0`, starting
from a store whose inventory quantities are non-negative, every intermediate
store still has only non-negative inventory quantities. -/
theorem ledger_quantity_nonneg (ops : List LedgerOp) :
    ops.all opQuantityPos = true →
    ∀ s : LedgerState, wfState s = true →
    ∀ n : Nat, wfState (List.foldl applyOp s (ops.take n)) = true := by
  induction ops with
  | nil =>
    intro _ s hwf n
    simpa using hwf
  | cons op rest ih =>
    intro hops s hwf n
    rw [List.all_cons, Bool.and_eq_true] at hops
    cases n with
    | zero => simpa using hwf
    | succ m =>
      rw [List.take_succ_cons, List.foldl_cons]
      exact ih hops.2 (applyOp s op) (applyOp_preserves s op hwf hops.1) m

/-- Witness for C1: a concrete create/update/delete run from quantity 10. -/
theorem ledger_quantity_nonneg_witness :
    ([LedgerOp.createOp 3 1 5 4, LedgerOp.updateOp 3 9,
       LedgerOp.deleteOp 3].all opQuantityPos = true) ∧
    wfState ⟨[1], [(5, ⟨10, false⟩)], []⟩ = true ∧
    wfState (List.foldl applyOp ⟨[1], [(5, ⟨10, false⟩)], []⟩
      ([LedgerOp.createOp 3 1 5 4, LedgerOp.updateOp 3 9,
        LedgerOp.deleteOp 3].take 3)) = true :=
  ⟨by decide, by decide,
    ledger_quantity_nonneg
      [LedgerOp.createOp 3 1 5 4, LedgerOp.updateOp 3 9, LedgerOp.deleteOp 3]
      (by decide) ⟨[1], [(5, ⟨10, false⟩)], []⟩ (by decide) 3⟩

/-! ### Maintenance recurrence engine
(`src/routes/maintenanceSchedule.routes.ts`) -/

/-- A maintenance-schedule row (`src/models/MaintenanceSchedule.ts`), dates
as integer day numbers. -/
structure Schedule where
  machine_id : Nat
  frequency_days : Int
  last_completed : Option Int
  next_due : Int
  deleted : Bool
  deriving Repr, DecidableEq

/-- The maintenance-relevant columns of a machine row
(`src/models/Machine.ts`). -/
structure MachineRec where
  last_maintenance_date : Option Int
  next_maintenance_date : Option Int
  deleted : Bool
  deriving Repr, DecidableEq

/-- The slice of the store touched by the maintenance-schedule routes. -/
structure MaintState where
  schedules : List (Nat × Schedule)
  machines : List (Nat × MachineRec)
  deriving Repr, DecidableEq

/-- Outcome of one maintenance request. -/
structure MaintResult where
  status : Nat
  state : MaintState
  deriving Repr, DecidableEq

/-- `MaintenanceSchedule.findByPk` under `paranoid: true`. -/
def findSchedule (s : MaintState) (i : Nat) : Option Schedule :=
  match lookupA s.schedules i with
  | some sc => if sc.deleted then none else some sc
  | none => none

/-- `Machine.findByPk` (paranoid in the later model revision). -/
def findMachine (s : MaintState) (i : Nat) : Option MachineRec :=
  match lookupA s.machines i with
  | some m => if m.deleted then none else some m
  | none => none

/-- `POST /maintenance-schedules/:id/complete`: 404 if the schedule is
missing; otherwise compute `next_due = completion_date + frequency_days`
(calendar-day addition via `setDate(getDate() + frequency_days)`), update
the schedule's `last_completed`/`next_due`, then look up the machine — 404
if it is missing (the schedule update has already been applied at that
point, exactly as in the source) — else update the machine's maintenance
dates and answer 200. -/
def completeMaintenanceSchedule (s : MaintState) (sid : Nat)
    (completion_date : Int) : MaintResult :=
  match findSchedule s sid with
  | none => ⟨404, s⟩
  | some schedule =>
    let nextDueDate := completion_date + schedule.frequency_days
    let s1 : MaintState := { s with
      schedules := setA s.schedules sid
        { schedule with last_completed := some completion_date,
                        next_due := nextDueDate } }
    match findMachine s1 schedule.machine_id with
    | none => ⟨404, s1⟩
    | some machine =>
      let s2 := { s1 with
        machines := setA s1.machines schedule.machine_id
          { machine with last_maintenance_date := some completion_date,
                         next_maintenance_date := some nextDueDate } }
      ⟨200, s2⟩

/-- The request-body fields examined by `validateScheduleInput`; `none`
stands for an absent (`undefined`) field. Dates are day numbers, so a
supplied `next_due` always parses. -/
structure ScheduleBody where
  machine_id : Option Nat
  name : Option String
  description : Option String
  frequency_days : Option Int
  next_due : Option Int
  deriving Repr, DecidableEq

/-- `validateScheduleInput` from `src/routes/maintenanceSchedule.routes.ts`:
`isValid` holds exactly when no error was pushed — `machine_id` truthy and
numeric, `name` a string of length at least 3, `description` a non-empty
string, `frequency_days` a positive number, `next_due` a parseable date
(JS falsiness of `0` and `""` folded into the respective checks). -/
def validateScheduleInput (b : ScheduleBody) : Bool :=
  (match b.machine_id with
   | some m => decide (m ≠ 0)
   | none => false) &&
  (match b.name with
   | some nm => decide (3 ≤ nm.length)
   | none => false) &&
  (match b.description with
   | some ds => decide (ds ≠ "")
   | none => false) &&
  (match b.frequency_days with
   | some f => decide (0 < f)
   | none => false) &&
  b.next_due.isSome

/-- `PUT /maintenance-schedules/:id`: the handler destructures the body and
calls `validateScheduleInput({ name, description, frequency_days, next_due })`
— an object that never carries `machine_id` — so validation pushes
"Machine ID must be a valid number" on every request and the route answers
400 before reaching `findByPk`. The code after the validation check (404 on
a missing schedule, then `schedule.update` writing `frequency_days`,
`next_due` and, when supplied, `last_completed` from the request) is
embedded as written but is unreachable; the `getD` defaults in it are never
exercised. -/
def updateMaintenanceSchedule (s : MaintState) (sid : Nat)
    (body : ScheduleBody) (last_completed : Option Int) : MaintResult :=
  if validateScheduleInput { body with machine_id := none } = false then ⟨400, s⟩
  else
    match findSchedule s sid with
    | none => ⟨404, s⟩
    | some schedule =>
      ⟨200, { s with
        schedules := setA s.schedules sid
          { schedule with
              frequency_days := body.frequency_days.getD schedule.frequency_days,
              next_due := body.next_due.getD schedule.next_due,
              last_completed :=
                match last_completed with
                | some d => some d
                | none => schedule.last_completed } }⟩

theorem findSchedule_not_deleted {s : MaintState} {i : Nat} {sc : Schedule}
    (h : findSchedule s i = some sc) :
    lookupA s.schedules i = some sc ∧ sc.deleted = false := by
  unfold findSchedule at h
  split at h
  · rename_i sc' hl
    split at h
    · cases h
    · rename_i hd
      cases h
      exact ⟨hl, by simpa using hd⟩
  · cases h

theorem findMachine_not_deleted {s : MaintState} {i : Nat} {m : MachineRec}
    (h : findMachine s i = some m) :
    lookupA s.machines i = some m ∧ m.deleted = false := by
  unfold findMachine at h
  split at h
  · rename_i m' hl
    split at h
    · cases h
    · rename_i hd
      cases h
      exact ⟨hl, by simpa using hd⟩
  · cases h

theorem completeMaintenanceSchedule_eq_noSchedule {s : MaintState} {sid : Nat}
    {d : Int} (h : findSchedule s sid = none) :
    completeMaintenanceSchedule s sid d = ⟨404, s⟩ := by
  unfold completeMaintenanceSchedule
  split
  · rfl
  · rename_i sc hsome
    rw [h] at hsome
    cases hsome

theorem completeMaintenanceSchedule_eq_noMachine {s : MaintState} {sid : Nat}
    {d : Int} {sched : Schedule}
    (hs : findSchedule s sid = some sched)
    (hm : findMachine s sched.machine_id = none) :
    completeMaintenanceSchedule s sid d =
      ⟨404, { s with
        schedules := setA s.schedules sid
          { sched with last_completed := some d,
                       next_due := d + sched.frequency_days } }⟩ := by
  unfold completeMaintenanceSchedule
  split
  · rename_i hnone
    rw [hs] at hnone
    cases hnone
  · rename_i sched' hsome
    rw [hs] at hsome
    injection hsome with he
    subst he
    dsimp only
    split
    · rfl
    · rename_i machine hsm
      have hsm' : findMachine s sched.machine_id = some machine := hsm
      rw [hm] at hsm'
      cases hsm'

theorem completeMaintenanceSchedule_eq_success {s : MaintState} {sid : Nat}
    {d : Int} {sched : Schedule} {m : MachineRec}
    (hs : findSchedule s sid = some sched)
    (hm : findMachine s sched.machine_id = some m) :
    completeMaintenanceSchedule s sid d =
      ⟨200, ⟨setA s.schedules sid
          { sched with last_completed := some d,
                       next_due := d + sched.frequency_days },
        setA s.machines sched.machine_id
          { m with last_maintenance_date := some d,
                   next_maintenance_date := some (d + sched.frequency_days) }⟩⟩ := by
  unfold completeMaintenanceSchedule
  split
  · rename_i hnone
    rw [hs] at hnone
    cases hnone
  · rename_i sched' hsome
    rw [hs] at hsome
    injection hsome with he
    subst he
    dsimp only
    split
    · rename_i hnone
      have hnone' : findMachine s sched.machine_id = none := hnone
      rw [hm] at hnone'
      cases hnone'
    · rename_i machine hsm
      have hsm' : findMachine s sched.machine_id = some machine := hsm
      rw [hm] at hsm'
      injection hsm' with he'
      subst he'
      rfl

/-! ### C3: successful schedule completion -/

/-- C3: a successful completion with `frequency_days = F` on day `D` answers
200, sets the schedule's `last_completed` to `D` and `next_due` to `D + F`
calendar days, and sets the owning machine's `last_maintenance_date` to `D`
and `next_maintenance_date` to the same `D + F`. -/
theorem completeMaintenanceSchedule_spec (s : MaintState) (sid : Nat) (d : Int)
    (sched : Schedule) (m : MachineRec)
    (hs : findSchedule s sid = some sched)
    (hm : findMachine s sched.machine_id = some m) :
    (completeMaintenanceSchedule s sid d).status = 200 ∧
    findSchedule (completeMaintenanceSchedule s sid d).state sid
      = some { sched with last_completed := some d,
                          next_due := d + sched.frequency_days } ∧
    findMachine (completeMaintenanceSchedule s sid d).state sched.machine_id
      = some { m with last_maintenance_date := some d,
                      next_maintenance_date := some (d + sched.frequency_days) } := by
  obtain ⟨hsl, hsd⟩ := findSchedule_not_deleted hs
  obtain ⟨hml, hmd⟩ := findMachine_not_deleted hm
  rw [completeMaintenanceSchedule_eq_success hs hm]
  refine ⟨rfl, ?_, ?_⟩
  · show (match lookupA
        (setA s.schedules sid
          { sched with last_completed := some d,
                       next_due := d + sched.frequency_days }) sid with
      | some sc => if sc.deleted then none else some sc
      | none => none) =
        some { sched with last_completed := some d,
                          next_due := d + sched.frequency_days }
    rw [lookupA_setA_self _ hsl]
    simp [hsd]
  · show (match lookupA
        (setA s.machines sched.machine_id
          { m with last_maintenance_date := some d,
                   next_maintenance_date := some (d + sched.frequency_days) })
        sched.machine_id with
      | some mm => if mm.deleted then none else some mm
      | none => none) =
        some { m with last_maintenance_date := some d,
                      next_maintenance_date := some (d + sched.frequency_days) }
    rw [lookupA_setA_self _ hml]
    simp [hmd]

/-- Witness for C3: completing a 30-day schedule on day 0 puts both the
schedule's `next_due` and the machine's `next_maintenance_date` at day 30. -/
theorem completeMaintenanceSchedule_spec_witness :
    (completeMaintenanceSchedule
      ⟨[(1, ⟨7, 30, none, 5, false⟩)], [(7, ⟨none, none, false⟩)]⟩ 1 0).status = 200 ∧
    findSchedule (completeMaintenanceSchedule
      ⟨[(1, ⟨7, 30, none, 5, false⟩)], [(7, ⟨none, none, false⟩)]⟩ 1 0).state 1
      = some ⟨7, 30, some 0, 30, false⟩ ∧
    findMachine (completeMaintenanceSchedule
      ⟨[(1, ⟨7, 30, none, 5, false⟩)], [(7, ⟨none, none, false⟩)]⟩ 1 0).state 7
      = some ⟨some 0, some 30, false⟩ :=
  completeMaintenanceSchedule_spec
    ⟨[(1, ⟨7, 30, none, 5, false⟩)], [(7, ⟨none, none, false⟩)]⟩ 1 0
    ⟨7, 30, none, 5, false⟩ ⟨none, none, false⟩ (by decide) (by decide)

/-! ### C4: NotFound during completion -/

/-- C4 counterexample: when the schedule exists but its machine is missing,
the handler answers 404 yet the schedule row has already been rewritten
(`last_completed` from `none` to day 100, `next_due` from 50 to 130) —
the claimed absence of partial application fails on the code. -/
theorem completeMaintenanceSchedule_mutates_without_machine :
    (completeMaintenanceSchedule ⟨[(1, ⟨7, 30, none, 50, false⟩)], []⟩ 1 100).status = 404 ∧
    findSchedule
      (completeMaintenanceSchedule ⟨[(1, ⟨7, 30, none, 50, false⟩)], []⟩ 1 100).state 1
      = some ⟨7, 30, some 100, 130, false⟩ ∧
    (completeMaintenanceSchedule ⟨[(1, ⟨7, 30, none, 50, false⟩)], []⟩ 1 100).state
      ≠ ⟨[(1, ⟨7, 30, none, 50, false⟩)], []⟩ := by
  decide

/-- C4 amended: a completion answering NotFound because the schedule is
missing mutates nothing; a completion answering NotFound because the machine
is missing has already applied the schedule update (`last_completed := D`,
`next_due := D + frequency_days`) — the machine update alone is skipped. -/
theorem completeMaintenanceSchedule_notFound_spec (s : MaintState) (sid : Nat)
    (d : Int) :
    (findSchedule s sid = none → completeMaintenanceSchedule s sid d = ⟨404, s⟩) ∧
    (∀ sched : Schedule, findSchedule s sid = some sched →
      findMachine s sched.machine_id = none →
      completeMaintenanceSchedule s sid d =
        ⟨404, { s with
          schedules := setA s.schedules sid
            { sched with last_completed := some d,
                         next_due := d + sched.frequency_days } }⟩) :=
  ⟨fun h => completeMaintenanceSchedule_eq_noSchedule h,
   fun _ hs hm => completeMaintenanceSchedule_eq_noMachine hs hm⟩

/-- Witness for the amended C4: the concrete machine-missing run. -/
theorem completeMaintenanceSchedule_notFound_spec_witness :
    completeMaintenanceSchedule ⟨[(1, ⟨7, 30, none, 50, false⟩)], []⟩ 1 100
      = ⟨404, ⟨[(1, ⟨7, 30, some 100, 130, false⟩)], []⟩⟩ :=
  (completeMaintenanceSchedule_notFound_spec
      ⟨[(1, ⟨7, 30, none, 50, false⟩)], []⟩ 1 100).2
    ⟨7, 30, none, 50, false⟩ (by decide) (by decide)

/-! ### C8: the recurrence invariant -/

/-- The data-model invariant of the spec: once a completion is recorded,
`next_due = last_completed + frequency_days`. -/
def scheduleInvariant (sc : Schedule) : Bool :=
  match sc.last_completed with
  | none => true
  | some d => decide (sc.next_due = d + sc.frequency_days)

/-- The invariant over every schedule row of a store. -/
def allSchedulesInvariant (s : MaintState) : Bool :=
  s.schedules.all (fun p => scheduleInvariant p.2)

theorem allSchedulesInvariant_iff (s : MaintState) :
    allSchedulesInvariant s = true ↔
      ∀ p ∈ s.schedules, scheduleInvariant p.2 = true := by
  unfold allSchedulesInvariant
  rw [List.all_eq_true]

/-- The validated object built by the `PUT` handler never carries
`machine_id`, so `validateScheduleInput` always fails and the route always
answers 400 with the store untouched. -/
theorem updateMaintenanceSchedule_always_invalid (s : MaintState) (sid : Nat)
    (body : ScheduleBody) (last_completed : Option Int) :
    updateMaintenanceSchedule s sid body last_completed = ⟨400, s⟩ := rfl

/-- One schedule operation issued through the routes: a completion or a
`PUT` update. -/
inductive MaintOp where
  | completeOp (sid : Nat) (completion_date : Int)
  | updateOp (sid : Nat) (body : ScheduleBody) (last_completed : Option Int)
  deriving Repr, DecidableEq

/-- Execute one schedule operation, keeping the resulting store. -/
def applyMaintOp (s : MaintState) : MaintOp → MaintState
  | .completeOp sid d => (completeMaintenanceSchedule s sid d).state
  | .updateOp sid body lc => (updateMaintenanceSchedule s sid body lc).state

/-- Each schedule operation preserves the recurrence invariant on every
schedule row: a completion rewrites its schedule to a satisfying row (also
when the machine lookup then answers 404), and an update never mutates. -/
theorem applyMaintOp_preserves (s : MaintState) (op : MaintOp)
    (hinv : allSchedulesInvariant s = true) :
    allSchedulesInvariant (applyMaintOp s op) = true := by
  cases op with
  | completeOp sid d =>
    simp only [applyMaintOp]
    cases hs : findSchedule s sid with
    | none =>
      rw [completeMaintenanceSchedule_eq_noSchedule hs]
      exact hinv
    | some sched =>
      have hall : ∀ p ∈ setA s.schedules sid
          { sched with last_completed := some d,
                       next_due := d + sched.frequency_days },
          scheduleInvariant p.2 = true := by
        intro p hp
        rcases mem_setA hp with he | hmem
        · rw [he]
          simp [scheduleInvariant]
        · exact (allSchedulesInvariant_iff s).1 hinv p hmem
      cases hm : findMachine s sched.machine_id with
      | none =>
        rw [completeMaintenanceSchedule_eq_noMachine hs hm]
        exact (allSchedulesInvariant_iff _).2 hall
      | some m =>
        rw [completeMaintenanceSchedule_eq_success hs hm]
        exact (allSchedulesInvariant_iff _).2 hall
  | updateOp sid body lc =>
    simp only [applyMaintOp]
    rw [updateMaintenanceSchedule_always_invalid]
    exact hinv

/-- C8: starting from any store whose schedules satisfy the recurrence
relation wherever a completion is recorded (vacuously true before any
completion), every store reachable through the schedule operations
(complete, `PUT` update) still satisfies it: every schedule with
`last_completed` non-null has `next_due = last_completed + frequency_days`.
A completion re-establishes the relation on its schedule, and the `PUT`
update never reaches its write (its validation always fails for want of
`machine_id`). -/
theorem maintenance_recurrence_invariant (ops : List MaintOp) :
    ∀ s : MaintState, allSchedulesInvariant s = true →
    ∀ n : Nat,
      allSchedulesInvariant (List.foldl applyMaintOp s (ops.take n)) = true := by
  induction ops with
  | nil =>
    intro s hinv n
    simpa using hinv
  | cons op rest ih =>
    intro s hinv n
    cases n with
    | zero => simpa using hinv
    | succ m =>
      rw [List.take_succ_cons, List.foldl_cons]
      exact ih (applyMaintOp s op) (applyMaintOp_preserves s op hinv) m

/-- Witness for C8: a fresh 30-day schedule, one completion on day 0, then
a `PUT` update asking for `next_due = 99`; the invariant holds throughout
(the update is rejected with 400 by the real handler's validation). -/
theorem maintenance_recurrence_invariant_witness :
    allSchedulesInvariant
      ⟨[(1, ⟨7, 30, none, 5, false⟩)], [(7, ⟨none, none, false⟩)]⟩ = true ∧
    allSchedulesInvariant (List.foldl applyMaintOp
      ⟨[(1, ⟨7, 30, none, 5, false⟩)], [(7, ⟨none, none, false⟩)]⟩
      ([MaintOp.completeOp 1 0,
        MaintOp.updateOp 1 ⟨some 7, some "pump", some "check seals", some 30, some 99⟩
          none].take 2)) = true :=
  ⟨by decide,
    maintenance_recurrence_invariant
      [MaintOp.completeOp 1 0,
       MaintOp.updateOp 1 ⟨some 7, some "pump", some "check seals", some 30, some 99⟩
         none]
      ⟨[(1, ⟨7, 30, none, 5, false⟩)], [(7, ⟨none, none, false⟩)]⟩ (by decide) 2⟩

/-! ### Access control gate (`src/middleware/roleAuth.ts`) -/

/-- How the JWT carried in the request cookie stands. -/
inductive TokenState where
  | missing
  | invalid
  | valid (role : String)
  deriving Repr, DecidableEq

/-- What the middleware did: the response status it sent, if any, and
whether it invoked `next()`, handing control to the guarded handler. -/
structure AuthOutcome where
  status : Option Nat
  proceeds : Bool
  deriving Repr, DecidableEq

/-- `authorize(roles)` from `src/middleware/roleAuth.ts`: no cookie token →
401 and return; token failing `jwt.verify` → 401 and return; verified token
whose role is not in `roles` → respond 403, but the branch lacks a `return`,
so control falls through and `next()` is still called; allowed role →
`next()` with no status written. -/
def authorize (roles : List String) : TokenState → AuthOutcome
  | .missing => ⟨some 401, false⟩
  | .invalid => ⟨some 401, false⟩
  | .valid role =>
      if roles.contains role then ⟨none, true⟩
      else ⟨some 403, true⟩

/-- C5 evaluated at the failing input: a valid token with role
`technician` on a route restricted to `admin` gets the 403 response, yet
`next()` is still invoked, so the guarded handler executes — contradicting
the claim that the handler is not executed (the 401 paths, by contrast, do
stop). -/
theorem authorize_insufficient_role_still_proceeds :
    authorize ["admin"] (TokenState.valid "technician") = ⟨some 403, true⟩ ∧
    authorize ["admin"] TokenState.missing = ⟨some 401, false⟩ ∧
    authorize ["admin"] TokenState.invalid = ⟨some 401, false⟩ := by
  refine ⟨?_, rfl, rfl⟩
  rfl

/-! ### Soft deletion (paranoid persistence) -/

/-- A persisted row of a soft-deletable entity: the payload columns plus the
`deleted_at` timestamp column (`paranoid: true` with `deletedAt:
'deleted_at'` in the model definitions). -/
structure PRow (α : Type) where
  val : α
  deleted_at : Option Int
  deriving Repr, DecidableEq

/-- Modelled from the spec: the ORM's `destroy()` on a paranoid model
(invoked by the DELETE routes, e.g. `inventory.destroy()` in
`src/routes/inventory.routes.ts`) is provided by the out-of-scope ORM
collaborator; per the spec's lifecycle section it marks the record inactive
with a deletion timestamp without physically removing it. -/
def destroyP {α : Type} : List (Nat × PRow α) → Nat → Int → List (Nat × PRow α)
  | [], _, _ => []
  | (k, r) :: rest, i, now =>
      if k = i then (k, { r with deleted_at := some now }) :: destroyP rest i now
      else (k, r) :: destroyP rest i now

/-- Modelled from the spec: list reads on a paranoid model implicitly
exclude soft-deleted rows. -/
def findAllP {α : Type} (rows : List (Nat × PRow α)) : List (Nat × PRow α) :=
  rows.filter (fun p => p.2.deleted_at.isNone)

/-- Modelled from the spec: `findByPk` on a paranoid model does not see a
soft-deleted row. -/
def findByPkP {α : Type} (rows : List (Nat × PRow α)) (i : Nat) :
    Option (PRow α) :=
  match lookupA rows i with
  | some r => if r.deleted_at.isNone then some r else none
  | none => none

theorem lookupA_destroyP {α : Type} (rows : List (Nat × PRow α)) (i : Nat)
    (now : Int) :
    lookupA (destroyP rows i now) i
      = Option.map (fun r => { r with deleted_at := some now }) (lookupA rows i) := by
  induction rows with
  | nil => rfl
  | cons hd tl ih =>
    obtain ⟨k, r⟩ := hd
    by_cases hk : k = i
    · simp [destroyP, lookupA, hk]
    · simp [destroyP, lookupA, hk, ih]

theorem findByPkP_destroyP {α : Type} (rows : List (Nat × PRow α)) (i : Nat)
    (now : Int) : findByPkP (destroyP rows i now) i = none := by
  unfold findByPkP
  rw [lookupA_destroyP]
  cases lookupA rows i with
  | none => rfl
  | some r => rfl

theorem destroyP_key_deleted {α : Type} {rows : List (Nat × PRow α)}
    {i : Nat} {now : Int} {p : Nat × PRow α}
    (hp : p ∈ destroyP rows i now) (hk : p.1 = i) :
    p.2.deleted_at = some now := by
  induction rows with
  | nil => simp [destroyP] at hp
  | cons hd tl ih =>
    obtain ⟨k, r⟩ := hd
    unfold destroyP at hp
    by_cases hki : k = i
    · rw [if_pos hki] at hp
      rcases List.mem_cons.1 hp with he | hmem
      · rw [he]
      · exact ih hmem
    · rw [if_neg hki] at hp
      rcases List.mem_cons.1 hp with he | hmem
      · rw [he] at hk
        exact absurd hk hki
      · exact ih hmem

theorem findAllP_destroyP {α : Type} (rows : List (Nat × PRow α)) (i : Nat)
    (now : Int) : ∀ p ∈ findAllP (destroyP rows i now), p.1 ≠ i := by
  intro p hp hk
  rw [findAllP, List.mem_filter] at hp
  have hdel := destroyP_key_deleted hp.1 hk
  rw [hdel] at hp
  simpa using hp.2

/-- C9: destroying a row of a soft-deletable entity leaves it invisible to
subsequent reads: `findByPk` of that key answers `none`, and no element of a
`findAll` result carries that key. -/
theorem softDelete_excludes_reads (α : Type) (rows : List (Nat × PRow α))
    (i : Nat) (now : Int) :
    findByPkP (destroyP rows i now) i = none ∧
    ∀ p ∈ findAllP (destroyP rows i now), p.1 ≠ i :=
  ⟨findByPkP_destroyP rows i now, findAllP_destroyP rows i now⟩

/-- Witness for C9 at a concrete two-row store. -/
theorem softDelete_excludes_reads_witness :
    findByPkP (destroyP [(2, (⟨5, none⟩ : PRow Int)), (3, ⟨6, none⟩)] 2 9) 2
      = none :=
  (softDelete_excludes_reads Int [(2, ⟨5, none⟩), (3, ⟨6, none⟩)] 2 9).1

end ArBackend
